import Mathlib

/-!
Shallow embedding of the af-automations-backend appointment service
(`main.go` / the zerolog variant of the same handlers).  Pure Go helpers
become Lean functions; the HTTP handlers become functions from the request
data and an explicit storage state to the list of response writes and the
new storage state.  The relational store is modelled as an explicit list
of rows; the SQL statements the handlers issue are modelled as the
corresponding list operations.
-/

namespace AfBackend

/-- Mirrors `AVAILABLE_DAYS = []int{2, 4, 5}` — Tuesday (2), Thursday (4),
Friday (5), with Go's `time.Weekday` numbering (Sunday = 0). -/
def AVAILABLE_DAYS : List Nat := [2, 4, 5]

/-- Mirrors `BLOCKED_TIME.Start = "14:00"`. -/
def BLOCKED_TIME_Start : String := "14:00"

/-- Mirrors `BLOCKED_TIME.End = "14:30"`. -/
def BLOCKED_TIME_End : String := "14:30"

/-- Mirrors the Go struct `TimeSlot {Time string; IsBooked bool}`. -/
structure TimeSlot where
  time : String
  isBooked : Bool
deriving DecidableEq, Repr

/-- Mirrors the Go struct `Appointment` (JSON body of a booking request and
row shape of the `appointments` table). -/
structure Appointment where
  id : Int
  name : String
  email : String
  date : String
  time : String
  message : Option String
deriving DecidableEq, Repr

/-- Mirrors the Go struct `ContactRequest {FullName, Email string}`. -/
structure ContactRequest where
  fullName : String
  email : String
deriving DecidableEq, Repr

/-- The storage collaborator: the `appointments` and `contacts` tables.
`nextId` models the id sequence behind `INSERT ... RETURNING id`. -/
structure DB where
  appointments : List Appointment
  contacts : List (String × String)
  nextId : Int
deriving DecidableEq, Repr

/-- Byte-wise "less than" on strings, as Go's `<` on `string` values.  The
strings the handlers compare are ASCII, where byte order and character
order agree, so the comparison recurses over the character lists. -/
def charsLt : List Char → List Char → Bool
  | [], [] => false
  | [], _ :: _ => true
  | _ :: _, [] => false
  | a :: as, b :: bs =>
    if a.toNat < b.toNat then true
    else if b.toNat < a.toNat then false
    else charsLt as bs

/-- Go's `a < b` on strings. -/
def goStrLt (a b : String) : Bool :=
  charsLt a.data b.data

/-- Go's `a <= b` on strings (total order: not `b < a`). -/
def goStrLe (a b : String) : Bool :=
  !(goStrLt b a)

/-- Splitting a character list around every occurrence of `sep`;
the recursion scheme of Go's `strings.Split` for a one-character
separator. -/
def splitChar (sep : Char) : List Char → List (List Char)
  | [] => [[]]
  | c :: cs =>
    match splitChar sep cs with
    | [] => [[]]
    | seg :: segs =>
      if c == sep then [] :: seg :: segs
      else (c :: seg) :: segs

/-- Mirrors `strings.Split(s, sep)` for a one-character separator: the
list of (possibly empty) fragments between occurrences of `sep`; a string
without the separator yields the one-element list `[s]`. -/
def goSplit (s : String) (sep : Char) : List String :=
  (splitChar sep s.data).map String.mk

/-- Go's `unicode.IsSpace` restricted to ASCII, the character set of the
strings the handlers normalize: tab, newline, vertical tab, form feed,
carriage return, space. -/
def goIsSpace (c : Char) : Bool :=
  c == ' ' || c == '\t' || c == '\n' || c == '\x0b' || c == '\x0c' || c == '\r'

/-- Mirrors `strings.TrimSpace`: drop white space from both ends (exact
for ASCII data; Go additionally knows non-ASCII Unicode white space). -/
def goTrimSpace (s : String) : String :=
  String.mk (((s.data.dropWhile goIsSpace).reverse.dropWhile goIsSpace).reverse)

/-- Lower-casing of one character, ASCII range of Go's `strings.ToLower`. -/
def goCharToLower (c : Char) : Char :=
  if 'A' ≤ c ∧ c ≤ 'Z' then Char.ofNat (c.toNat + 32) else c

/-- Mirrors `strings.ToLower` (exact for ASCII data). -/
def goToLower (s : String) : String :=
  String.mk (s.data.map goCharToLower)

/-- Mirrors Go's `fmt.Sprintf("%02d", n)` for the hour/minute values used
by `generateTimeSlots` (all below 100). -/
def fmt2 (n : Nat) : String :=
  if n < 10 then "0" ++ toString n else toString n

/-- Mirrors `fmt.Sprintf("%02d:%02d", hour, minute)`. -/
def timeString (hour minute : Nat) : String :=
  fmt2 hour ++ ":" ++ fmt2 minute

/-- Mirrors `generateTimeSlots`: hours 9 to 16, minutes 0 and 30, skipping
any slot with `BLOCKED_TIME.Start <= t < BLOCKED_TIME.End` (Go compares
strings byte-wise; these strings are ASCII, so Lean's lexicographic string
order agrees). -/
def generateTimeSlots : List String :=
  (List.range' 9 8).flatMap fun hour =>
    ([0, 30]).filterMap fun minute =>
      let ts := timeString hour minute
      if goStrLe BLOCKED_TIME_Start ts && goStrLt ts BLOCKED_TIME_End then none
      else some ts

/-- Mirrors the Go helper `contains(slice []int, item int)`. -/
def contains (slice : List Nat) (item : Nat) : Bool :=
  slice.any (· == item)

/-- Gregorian leap-year rule, as used by Go's `time` package. -/
def isLeapYear (y : Nat) : Bool :=
  y % 4 == 0 && (y % 100 != 0 || y % 400 == 0)

/-- Number of days in a month of the proleptic Gregorian calendar;
`time.Parse` rejects a day outside this range. -/
def daysInMonth (y m : Nat) : Nat :=
  if m == 2 then (if isLeapYear y then 29 else 28)
  else if m == 4 || m == 6 || m == 9 || m == 11 then 30
  else 31

/-- Numeric value of a decimal digit character. -/
def digitVal (c : Char) : Nat :=
  c.toNat - 48

/-- Mirrors `time.Parse("2006-01-02", s)` restricted to what the handlers
use: it succeeds exactly on 10-character `YYYY-MM-DD` strings with digits
in the digit positions, month in 1..12 and day in 1..daysInMonth, and
yields the (year, month, day) triple. -/
def parseDate (s : String) : Option (Nat × Nat × Nat) :=
  match s.data with
  | [y1, y2, y3, y4, c1, m1, m2, c2, d1, d2] =>
    if y1.isDigit && y2.isDigit && y3.isDigit && y4.isDigit &&
       c1 == '-' && m1.isDigit && m2.isDigit && c2 == '-' &&
       d1.isDigit && d2.isDigit then
      let y := ((digitVal y1 * 10 + digitVal y2) * 10 + digitVal y3) * 10 + digitVal y4
      let m := digitVal m1 * 10 + digitVal m2
      let d := digitVal d1 * 10 + digitVal d2
      if 1 ≤ m && m ≤ 12 && 1 ≤ d && d ≤ daysInMonth y m then
        some (y, m, d)
      else none
    else none
  | _ => none

/-- Mirrors `int(parsedDate.Weekday())`: day of week of a proleptic
Gregorian date with Go's numbering (Sunday = 0, ..., Saturday = 6).
Computed by counting days in the civil calendar; the year is shifted by
400 (a full weekday cycle: 146097 days is a multiple of 7) to stay in `Nat`
for January and February of year 0. -/
def dayOfWeek (y m d : Nat) : Nat :=
  let ys := y + 400
  let ys := if m ≤ 2 then ys - 1 else ys
  let era := ys / 400
  let yoe := ys % 400
  let mp := (m + 9) % 12
  let doy := (153 * mp + 2) / 5 + (d - 1)
  let doe := yoe * 365 + yoe / 4 - yoe / 100 + doy
  (era * 146097 + doe + 3) % 7

/-- Character class `[^\s@]` of the Go regexp: anything but RE2 whitespace
(`\t \n \f \r` and space) and `@`. -/
def emailOkChar (c : Char) : Bool :=
  !(c == ' ' || c == '\t' || c == '\n' || c == '\r' || c == '\x0c') && c != '@'

/-- Mirrors `regexp.MustCompile("^[^\\s@]+@[^\\s@]+\\.[^\\s@]+$").MatchString`:
the string matches exactly when it decomposes as a nonempty run of
`emailOkChar` characters, an `@` at position `i`, a nonempty run, a `.` at
position `j`, and a final nonempty run.  The decision searches over the
positions of the `@` and of the `.`. -/
def emailRegexMatch (s : String) : Bool :=
  let cs := s.data
  (List.range cs.length).any fun i =>
    (List.range cs.length).any fun j =>
      decide (0 < i) && decide (i + 1 < j) && decide (j + 1 < cs.length) &&
      (cs.getD i ' ' == '@') && (cs.getD j ' ' == '.') &&
      (cs.take i).all emailOkChar &&
      ((cs.drop (i + 1)).take (j - (i + 1))).all emailOkChar &&
      (cs.drop (j + 1)).all emailOkChar

/-- One write the GET handler performs on the `http.ResponseWriter`:
either `handleError` (status code plus error json) or the final
`Encode(AppointmentResponse{Slots: ...})`, which carries the implicit 200
status. -/
inductive Write where
  | werror (status : Nat) (msg : String)
  | wslots (slots : List TimeSlot)
deriving DecidableEq, Repr

/-- Models `SELECT time FROM appointments WHERE date = $1` against the
appointments table. -/
def storedTimes (db : DB) (date : String) : List String :=
  (db.appointments.filter (fun a => a.date == date)).map (·.time)

/-- The normalization the GET handler applies to one stored time value:
split on `"T"`, take the fragment after the separator (index 1), truncate
to the first five characters when longer.  Defined for the well-formed
case (`splitOn` yields exactly two parts); the handler's behaviour on
other inputs is captured by `normalizeLoop`. -/
def normTime (t : String) : String :=
  let s := (goSplit t 'T').getD 1 ""
  if s.length > 5 then String.mk (s.data.take 5) else s

/-- The `for rows.Next()` loop of `handleGetAppointments`, building the
`bookedTimes` set.  Each iteration checks `t == ""` and the split length,
calling `handleError` WITHOUT returning (the Go code has no `return` in
those branches), then executes `t = splittedString[1]` — which panics with
an index-out-of-range when the split has fewer than two parts.  The result
is the list of writes performed so far, together with `some bookedTimes`
when the loop finishes, or `none` when it panics. -/
def normalizeLoop : List String → List String → (List Write × Option (List String))
  | [], booked => ([], some booked)
  | t :: rest, booked =>
    let w1 : List Write :=
      if t == "" then [.werror 500 "Time of booked appointment was empty"] else []
    let parts := goSplit t 'T'
    let w2 : List Write :=
      if parts.length != 2 then
        [.werror 500 "Time string was not in correct format with a T as a separator. Please clean the data!"]
      else []
    match parts[1]? with
    | none => (w1 ++ w2, none)
    | some s =>
      let s := if s.length > 5 then String.mk (s.data.take 5) else s
      let r := normalizeLoop rest (booked ++ [s])
      (w1 ++ w2 ++ r.1, r.2)

/-- Mirrors `handleGetAppointments`: require a date parameter, parse it,
answer a non-bookable weekday with an empty slot list, otherwise read the
booked times for the date from storage, normalize them, and annotate every
generated slot with its booking status.  A panic in the normalization loop
cuts the response short after the error writes. -/
def handleGetAppointments (date : String) (db : DB) : List Write :=
  if date == "" then [.werror 400 "Date is required"]
  else
    match parseDate date with
    | none => [.werror 400 "Invalid date format"]
    | some (y, m, d) =>
      if !(contains AVAILABLE_DAYS (dayOfWeek y m d)) then [.wslots []]
      else
        let (ws, res) := normalizeLoop (storedTimes db date) []
        match res with
        | none => ws
        | some booked =>
          let slotsWithStatus := generateTimeSlots.map fun slot =>
            { time := slot, isBooked := booked.contains slot : TimeSlot }
          ws ++ [.wslots slotsWithStatus]

/-- Models `SELECT COUNT(*) FROM appointments WHERE date = $1 AND time = $2`. -/
def countMatching (db : DB) (date time : String) : Nat :=
  (db.appointments.filter (fun a => a.date == date && a.time == time)).length

/-- Response of the POST /api/appointments handler: `handleError`, or the
success json carrying the appointment echoed back with its assigned id. -/
inductive PostResponse where
  | perror (status : Nat) (msg : String)
  | pok (appointment : Appointment)
deriving DecidableEq, Repr

/-- Mirrors `handlePostAppointment`: required-field check, email regex,
date parse, weekday check, slot-uniqueness count, then the insert with
trimmed name and trimmed lowercased email; `RETURNING id` is modelled by
`db.nextId`.  Returns the response and the resulting storage state. -/
def handlePostAppointment (appointment : Appointment) (db : DB) :
    PostResponse × DB :=
  if appointment.name == "" || appointment.email == "" ||
     appointment.date == "" || appointment.time == "" then
    (.perror 400 "Name, email, date, and time are required", db)
  else if !(emailRegexMatch appointment.email) then
    (.perror 400 "Invalid email format", db)
  else
    match parseDate appointment.date with
    | none => (.perror 400 "Invalid date format", db)
    | some (y, m, d) =>
      if !(contains AVAILABLE_DAYS (dayOfWeek y m d)) then
        (.perror 400 "This day is not available for appointments", db)
      else if countMatching db appointment.date appointment.time > 0 then
        (.perror 400 "This time slot is already booked", db)
      else
        let row : Appointment :=
          { id := db.nextId
            name := goTrimSpace appointment.name
            email := goToLower (goTrimSpace appointment.email)
            date := appointment.date
            time := appointment.time
            message := appointment.message }
        let db' : DB :=
          { db with appointments := db.appointments ++ [row]
                    nextId := db.nextId + 1 }
        (.pok { appointment with id := db.nextId }, db')

/-- Response of the POST /api/contacts handler: `handleError`, or the
`{success, message}` json written with status 200. -/
inductive ContactResponse where
  | cerror (status : Nat) (msg : String)
  | cok (success : Bool) (message : String)
deriving DecidableEq, Repr

/-- Mirrors the body of `handleContacts` after method dispatch and body
decoding: required-field check, email regex, `INSERT INTO contacts`, then
the `SendMail` call.  The two collaborator outcomes the handler observes
are passed in explicitly: `insertOk` (whether the insert errs) and
`sendMailOk` (whether `SendMail` returns an error).  A `SendMail` failure
is only logged — the handler writes the same 200 success response and
keeps the stored row either way. -/
def handleContacts (contact : ContactRequest) (db : DB)
    (insertOk : Bool) (sendMailOk : Bool) : ContactResponse × DB :=
  if contact.fullName == "" || contact.email == "" then
    (.cerror 400 "Full name and email are required", db)
  else if !(emailRegexMatch contact.email) then
    (.cerror 400 "Invalid email format", db)
  else if !insertOk then
    (.cerror 500 "Error saving contact", db)
  else
    let db' : DB :=
      { db with contacts := db.contacts ++ [(contact.fullName, contact.email)] }
    let _ := sendMailOk
    (.cok true "Contact received and email sent.", db')

end AfBackend

namespace AfBackend

/-- The uniqueness invariant of the spec's data model: no two rows of the
appointments table share the same (date, time) pair. -/
def UniquePairs (db : DB) : Prop :=
  db.appointments.Pairwise fun a b => ¬(a.date = b.date ∧ a.time = b.time)

/-- C2: the slot generator, with no input beyond the compiled
configuration, returns exactly the zero-padded HH:MM strings on the
half-hour grid from 09:00 inclusive to 17:00 exclusive whose start time is
not in the blocked interval [14:00, 14:30) — i.e. the full grid with
"14:00" removed — in ascending order, 15 entries in all. -/
theorem generateTimeSlots_exact :
    generateTimeSlots =
      ["09:00", "09:30", "10:00", "10:30", "11:00", "11:30", "12:00", "12:30",
       "13:00", "13:30", "14:30", "15:00", "15:30", "16:00", "16:30"] ∧
    generateTimeSlots.length = 15 ∧
    List.Pairwise (fun a b => goStrLt a b = true) generateTimeSlots ∧
    "14:00" ∉ generateTimeSlots ∧
    (∀ s ∈ generateTimeSlots,
      !(goStrLe BLOCKED_TIME_Start s && goStrLt s BLOCKED_TIME_End)) := by
  refine ⟨by decide, by decide, by decide, by decide, by decide⟩

/-- C6: for a syntactically valid date whose weekday is not in the
bookable set, the GET handler answers with the 200 empty-slot-list write
and nothing else, for every storage state (storage is never consulted). -/
theorem getAppointments_non_bookable_empty (date : String) (db : DB)
    (y m d : Nat)
    (hpd : parseDate date = some (y, m, d))
    (hday : contains AVAILABLE_DAYS (dayOfWeek y m d) = false) :
    handleGetAppointments date db = [Write.wslots []] := by
  have hne : date ≠ "" := by
    intro h
    rw [h, show parseDate "" = none by decide] at hpd
    exact Option.noConfusion hpd
  unfold handleGetAppointments
  rw [if_neg (by simp [hne]), hpd]
  simp [hday]

/-- Witness for C6 at the concrete Monday 2026-10-12, over a storage state
that does hold an appointment row for that date. -/
theorem getAppointments_non_bookable_empty_witness :
    handleGetAppointments "2026-10-12"
        ⟨[⟨1, "n", "e@f.gh", "2026-10-12", "2026-10-12T09:30:00", none⟩], [], 2⟩ =
      [Write.wslots []] :=
  getAppointments_non_bookable_empty "2026-10-12" _ 2026 10 12
    (by decide) (by decide)

/-- C9: once the contact row is stored, the handler answers 200 with
success regardless of whether `SendMail` fails; an email failure changes
neither the response nor the stored contacts. -/
theorem contacts_success_despite_email_failure (c : ContactRequest) (db : DB)
    (sendMailOk : Bool)
    (hn : c.fullName ≠ "")
    (hre : emailRegexMatch c.email = true) :
    handleContacts c db true sendMailOk =
      (.cok true "Contact received and email sent.",
       { db with contacts := db.contacts ++ [(c.fullName, c.email)] }) ∧
    (c.fullName, c.email) ∈ (handleContacts c db true sendMailOk).2.contacts ∧
    handleContacts c db true sendMailOk = handleContacts c db true (!sendMailOk) := by
  have he : c.email ≠ "" := by
    intro h
    rw [h] at hre
    exact absurd hre (by decide)
  unfold handleContacts
  simp [hn, he, hre]

/-- Helper: on a request that passes every check, `handlePostAppointment`
inserts the normalized row with the next storage id and echoes the
appointment back with that id. -/
theorem post_success_eq (appt : Appointment) (db : DB) (y m d : Nat)
    (hname : appt.name ≠ "") (htime : appt.time ≠ "")
    (hre : emailRegexMatch appt.email = true)
    (hpd : parseDate appt.date = some (y, m, d))
    (hday : contains AVAILABLE_DAYS (dayOfWeek y m d) = true)
    (hfree : countMatching db appt.date appt.time = 0) :
    handlePostAppointment appt db =
      (.pok { appt with id := db.nextId },
       { db with
          appointments := db.appointments ++
            [{ id := db.nextId
               name := goTrimSpace appt.name
               email := goToLower (goTrimSpace appt.email)
               date := appt.date
               time := appt.time
               message := appt.message }]
          nextId := db.nextId + 1 }) := by
  have hemail : appt.email ≠ "" := by
    intro h
    rw [h] at hre
    exact absurd hre (by decide)
  have hdate : appt.date ≠ "" := by
    intro h
    rw [h, show parseDate "" = none by decide] at hpd
    exact Option.noConfusion hpd
  unfold handlePostAppointment
  simp [hname, hemail, hdate, htime, hre, hpd, hday, hfree]

/-- C5: booking validation is fail-fast in exactly this order — required
fields, email shape, date format, bookable weekday, slot uniqueness — and
the first failing check determines the error, with the store left
unchanged on every failure. -/
theorem postAppointment_validation_order (appt : Appointment) (db : DB) :
    ((appt.name = "" ∨ appt.email = "" ∨ appt.date = "" ∨ appt.time = "") →
       handlePostAppointment appt db =
         (.perror 400 "Name, email, date, and time are required", db)) ∧
    (appt.name ≠ "" → appt.email ≠ "" → appt.date ≠ "" → appt.time ≠ "" →
     emailRegexMatch appt.email = false →
       handlePostAppointment appt db =
         (.perror 400 "Invalid email format", db)) ∧
    (appt.name ≠ "" → appt.date ≠ "" → appt.time ≠ "" →
     emailRegexMatch appt.email = true →
     parseDate appt.date = none →
       handlePostAppointment appt db =
         (.perror 400 "Invalid date format", db)) ∧
    (∀ y m d : Nat, appt.name ≠ "" → appt.time ≠ "" →
     emailRegexMatch appt.email = true →
     parseDate appt.date = some (y, m, d) →
     contains AVAILABLE_DAYS (dayOfWeek y m d) = false →
       handlePostAppointment appt db =
         (.perror 400 "This day is not available for appointments", db)) ∧
    (∀ y m d : Nat, appt.name ≠ "" → appt.time ≠ "" →
     emailRegexMatch appt.email = true →
     parseDate appt.date = some (y, m, d) →
     contains AVAILABLE_DAYS (dayOfWeek y m d) = true →
     countMatching db appt.date appt.time > 0 →
       handlePostAppointment appt db =
         (.perror 400 "This time slot is already booked", db)) := by
  refine ⟨?_, ?_, ?_, ?_, ?_⟩
  · intro h
    unfold handlePostAppointment
    rcases h with h | h | h | h <;> simp [h]
  · intro h1 h2 h3 h4 h5
    unfold handlePostAppointment
    simp [h1, h2, h3, h4, h5]
  · intro h1 h3 h4 h5 h6
    have h2 : appt.email ≠ "" := by
      intro h
      rw [h] at h5
      exact absurd h5 (by decide)
    unfold handlePostAppointment
    simp [h1, h2, h3, h4, h5, h6]
  · intro y m d h1 h4 h5 h6 h7
    have h2 : appt.email ≠ "" := by
      intro h
      rw [h] at h5
      exact absurd h5 (by decide)
    have h3 : appt.date ≠ "" := by
      intro h
      rw [h, show parseDate "" = none by decide] at h6
      exact Option.noConfusion h6
    unfold handlePostAppointment
    simp [h1, h2, h3, h4, h5, h6, h7]
  · intro y m d h1 h4 h5 h6 h7 h8
    have h2 : appt.email ≠ "" := by
      intro h
      rw [h] at h5
      exact absurd h5 (by decide)
    have h3 : appt.date ≠ "" := by
      intro h
      rw [h, show parseDate "" = none by decide] at h6
      exact Option.noConfusion h6
    unfold handlePostAppointment
    simp [h1, h2, h3, h4, h5, h6, h7, h8]

/-- C8: on a booking that passes all validation the stored row carries the
whitespace-trimmed name, the trimmed lowercased email, and the request's
date, time and optional message unchanged; storage assigns the id and the
response carries that same id. -/
theorem postAppointment_insert_normalized (appt : Appointment) (db : DB)
    (y m d : Nat)
    (hname : appt.name ≠ "") (htime : appt.time ≠ "")
    (hre : emailRegexMatch appt.email = true)
    (hpd : parseDate appt.date = some (y, m, d))
    (hday : contains AVAILABLE_DAYS (dayOfWeek y m d) = true)
    (hfree : countMatching db appt.date appt.time = 0) :
    (handlePostAppointment appt db).2.appointments =
      db.appointments ++
        [{ id := db.nextId
           name := goTrimSpace appt.name
           email := goToLower (goTrimSpace appt.email)
           date := appt.date
           time := appt.time
           message := appt.message }] ∧
    (handlePostAppointment appt db).1 = .pok { appt with id := db.nextId } := by
  rw [post_success_eq appt db y m d hname htime hre hpd hday hfree]
  exact ⟨rfl, rfl⟩

/-- Witness for C8: the name " Jo " is stored as "Jo", the email "A@b.co"
as "a@b.co", and the response returns the assigned id 7. -/
theorem postAppointment_insert_normalized_witness :
    (handlePostAppointment ⟨0, " Jo ", "A@b.co", "2026-10-13", "09:30", some "hi"⟩
        ⟨[], [], 7⟩).2.appointments =
      [] ++ [{ id := 7, name := goTrimSpace " Jo ", email := goToLower (goTrimSpace "A@b.co")
               date := "2026-10-13", time := "09:30", message := some "hi" }] ∧
    (handlePostAppointment ⟨0, " Jo ", "A@b.co", "2026-10-13", "09:30", some "hi"⟩
        ⟨[], [], 7⟩).1 =
      .pok ⟨7, " Jo ", "A@b.co", "2026-10-13", "09:30", some "hi"⟩ :=
  postAppointment_insert_normalized ⟨0, " Jo ", "A@b.co", "2026-10-13", "09:30", some "hi"⟩
    ⟨[], [], 7⟩ 2026 10 13 (by decide) (by decide) (by decide) (by decide)
    (by decide) (by decide)

/-- C10: the booking path checks the time only for non-emptiness and exact
(date, time) uniqueness — nothing ties it to the slot grid, the 09:00–17:00
window, the blocked window, or even HH:MM shape — so any non-empty time
string is accepted and inserted verbatim. -/
theorem postAppointment_no_time_grid_check (appt : Appointment) (db : DB)
    (y m d : Nat)
    (hname : appt.name ≠ "") (htime : appt.time ≠ "")
    (hre : emailRegexMatch appt.email = true)
    (hpd : parseDate appt.date = some (y, m, d))
    (hday : contains AVAILABLE_DAYS (dayOfWeek y m d) = true)
    (hfree : countMatching db appt.date appt.time = 0) :
    (handlePostAppointment appt db).1 = .pok { appt with id := db.nextId } ∧
    ({ id := db.nextId
       name := goTrimSpace appt.name
       email := goToLower (goTrimSpace appt.email)
       date := appt.date
       time := appt.time
       message := appt.message : Appointment } ∈
      (handlePostAppointment appt db).2.appointments) := by
  rw [post_success_eq appt db y m d hname htime hre hpd hday hfree]
  exact ⟨rfl, by simp⟩

/-- Witness for C10: the out-of-grid time "25:99" is accepted and stored
on a bookable Tuesday. -/
theorem postAppointment_no_time_grid_check_witness :
    (handlePostAppointment ⟨0, "Jo", "a.b@c.co", "2026-10-13", "25:99", none⟩
        ⟨[], [], 1⟩).1 =
      .pok ⟨1, "Jo", "a.b@c.co", "2026-10-13", "25:99", none⟩ ∧
    ({ id := 1, name := goTrimSpace "Jo", email := goToLower (goTrimSpace "a.b@c.co")
       date := "2026-10-13", time := "25:99", message := none : Appointment } ∈
      (handlePostAppointment ⟨0, "Jo", "a.b@c.co", "2026-10-13", "25:99", none⟩
        ⟨[], [], 1⟩).2.appointments) :=
  postAppointment_no_time_grid_check ⟨0, "Jo", "a.b@c.co", "2026-10-13", "25:99", none⟩
    ⟨[], [], 1⟩ 2026 10 13 (by decide) (by decide) (by decide) (by decide)
    (by decide) (by decide)

/-- Helper: booking a free slot raises the matching count for that exact
(date, time) pair from 0 to 1. -/
theorem countMatching_after_insert (appt : Appointment) (db : DB)
    (y m d : Nat)
    (hname : appt.name ≠ "") (htime : appt.time ≠ "")
    (hre : emailRegexMatch appt.email = true)
    (hpd : parseDate appt.date = some (y, m, d))
    (hday : contains AVAILABLE_DAYS (dayOfWeek y m d) = true)
    (hfree : countMatching db appt.date appt.time = 0) :
    countMatching (handlePostAppointment appt db).2 appt.date appt.time = 1 := by
  rw [post_success_eq appt db y m d hname htime hre hpd hday hfree]
  unfold countMatching at hfree ⊢
  simp only [List.filter_append, List.length_append, hfree]
  simp

/-- C4: with the exact (date, time) pair free, the first of two sequential
booking requests for that pair succeeds with the storage-assigned id, and
the second — any otherwise valid request for the same pair — fails with
the Conflict error, leaving the store exactly as the first booking left
it; consequently a successful booking preserves the uniqueness of
(date, time) pairs among the stored appointments. -/
theorem postAppointment_double_booking (appt appt2 : Appointment) (db : DB)
    (y m d : Nat)
    (hname : appt.name ≠ "") (htime : appt.time ≠ "")
    (hre : emailRegexMatch appt.email = true)
    (hpd : parseDate appt.date = some (y, m, d))
    (hday : contains AVAILABLE_DAYS (dayOfWeek y m d) = true)
    (hfree : countMatching db appt.date appt.time = 0)
    (hname2 : appt2.name ≠ "") (htime2 : appt2.time ≠ "")
    (hre2 : emailRegexMatch appt2.email = true)
    (hdate2 : appt2.date = appt.date) (htimeEq : appt2.time = appt.time) :
    (handlePostAppointment appt db).1 = .pok { appt with id := db.nextId } ∧
    handlePostAppointment appt2 (handlePostAppointment appt db).2 =
      (.perror 400 "This time slot is already booked",
       (handlePostAppointment appt db).2) ∧
    (UniquePairs db → UniquePairs (handlePostAppointment appt db).2) := by
  have hdate : appt.date ≠ "" := by
    intro h
    rw [h, show parseDate "" = none by decide] at hpd
    exact Option.noConfusion hpd
  have hcount1 :
      countMatching (handlePostAppointment appt db).2 appt2.date appt2.time = 1 := by
    rw [hdate2, htimeEq]
    exact countMatching_after_insert appt db y m d hname htime hre hpd hday hfree
  refine ⟨?_, ?_, ?_⟩
  · rw [post_success_eq appt db y m d hname htime hre hpd hday hfree]
  · have hemail2 : appt2.email ≠ "" := by
      intro h
      rw [h] at hre2
      exact absurd hre2 (by decide)
    have hdate2ne : appt2.date ≠ "" := hdate2 ▸ hdate
    have hpd2 : parseDate appt2.date = some (y, m, d) := hdate2 ▸ hpd
    exact ((postAppointment_validation_order appt2 (handlePostAppointment appt db).2).2.2.2.2
      y m d hname2 htime2 hre2 hpd2 hday (by rw [hcount1]; exact Nat.one_pos))
  · intro huniq
    have hnomatch : ∀ a ∈ db.appointments,
        ¬(a.date = appt.date ∧ a.time = appt.time) := by
      intro a ha hcontra
      have hfilter : (db.appointments.filter
          (fun a => a.date == appt.date && a.time == appt.time)) = [] :=
        List.length_eq_zero.mp hfree
      have : a ∈ (db.appointments.filter
          (fun a => a.date == appt.date && a.time == appt.time)) := by
        rw [List.mem_filter]
        exact ⟨ha, by simp [hcontra.1, hcontra.2]⟩
      rw [hfilter] at this
      exact absurd this (List.not_mem_nil a)
    rw [post_success_eq appt db y m d hname htime hre hpd hday hfree]
    unfold UniquePairs at huniq ⊢
    rw [List.pairwise_append]
    refine ⟨huniq, by simp, ?_⟩
    intro a ha b hb
    simp only [List.mem_singleton] at hb
    subst hb
    intro hcontra
    exact hnomatch a ha ⟨hcontra.1, hcontra.2⟩

/-- Witness for C4 on the concrete Tuesday 2026-10-13 at 09:30: the first
booking succeeds with id 5, the repeat of the same request is answered
with the Conflict error and the store stays as after the first, and
uniqueness of (date, time) pairs is preserved. -/
theorem postAppointment_double_booking_witness :
    ((handlePostAppointment ⟨0, "Jo", "a.b@c.co", "2026-10-13", "09:30", none⟩
        ⟨[], [], 5⟩).1 =
      .pok ⟨5, "Jo", "a.b@c.co", "2026-10-13", "09:30", none⟩) ∧
    (handlePostAppointment ⟨0, "Jo", "a.b@c.co", "2026-10-13", "09:30", none⟩
        (handlePostAppointment ⟨0, "Jo", "a.b@c.co", "2026-10-13", "09:30", none⟩
          ⟨[], [], 5⟩).2 =
      (.perror 400 "This time slot is already booked",
       (handlePostAppointment ⟨0, "Jo", "a.b@c.co", "2026-10-13", "09:30", none⟩
          ⟨[], [], 5⟩).2)) ∧
    (UniquePairs ⟨[], [], 5⟩ →
      UniquePairs (handlePostAppointment ⟨0, "Jo", "a.b@c.co", "2026-10-13", "09:30", none⟩
        ⟨[], [], 5⟩).2) :=
  postAppointment_double_booking
    ⟨0, "Jo", "a.b@c.co", "2026-10-13", "09:30", none⟩
    ⟨0, "Jo", "a.b@c.co", "2026-10-13", "09:30", none⟩
    ⟨[], [], 5⟩ 2026 10 13 (by decide) (by decide) (by decide) (by decide)
    (by decide) (by decide) (by decide) (by decide) (by decide) rfl rfl

/-- Witness for C9: the concrete contact is stored and answered 200 even
when the email-send collaborator fails. -/
theorem contacts_success_despite_email_failure_witness :
    handleContacts ⟨"Jo", "a.b@c.co"⟩ ⟨[], [], 1⟩ true false =
      (.cok true "Contact received and email sent.",
       { appointments := [], contacts := [("Jo", "a.b@c.co")], nextId := 1 }) ∧
    ("Jo", "a.b@c.co") ∈ (handleContacts ⟨"Jo", "a.b@c.co"⟩ ⟨[], [], 1⟩ true false).2.contacts ∧
    handleContacts ⟨"Jo", "a.b@c.co"⟩ ⟨[], [], 1⟩ true false =
      handleContacts ⟨"Jo", "a.b@c.co"⟩ ⟨[], [], 1⟩ true (!false) :=
  contacts_success_despite_email_failure ⟨"Jo", "a.b@c.co"⟩ ⟨[], [], 1⟩ false
    (by decide) (by decide)


/-- Helper: when every stored time value splits on the separator into
exactly two fragments, the normalization loop performs no write, does not
panic, and produces the `normTime` image of the stored values (appended to
the accumulator). -/
theorem normalizeLoop_wellFormed (l acc : List String)
    (h : ∀ t ∈ l, (goSplit t 'T').length = 2) :
    normalizeLoop l acc = ([], some (acc ++ l.map normTime)) := by
  induction l generalizing acc with
  | nil => simp [normalizeLoop]
  | cons t rest ih =>
    have ht : (goSplit t 'T').length = 2 := h t (List.mem_cons_self t rest)
    have htne : (t == "") = false := by
      cases hb : t == "" with
      | false => rfl
      | true =>
        rw [eq_of_beq hb] at ht
        exact absurd ht (by decide)
    have h1lt : 1 < (goSplit t 'T').length := by omega
    have hsome : (goSplit t 'T')[1]? = some ((goSplit t 'T')[1]) :=
      List.getElem?_eq_getElem h1lt
    have hrec := ih (acc ++ [normTime t]) (fun u hu => h u (List.mem_cons_of_mem t hu))
    have hnt : normTime t =
        (if ((goSplit t 'T')[1]).length > 5
         then String.mk (((goSplit t 'T')[1]).data.take 5)
         else (goSplit t 'T')[1]) := by
      unfold normTime
      rw [List.getD_eq_getElem _ _ h1lt]
    simp only [normalizeLoop, htne, hsome, ht, ← hnt, hrec]
    simp

/-- Helper: a stored time value that is empty or lacks the `"T"` separator
makes the normalization loop emit only 500-status error writes (at least
one) and then panic, so the booked-set is never produced. -/
theorem normalizeLoop_malformed (l acc : List String)
    (h : ∃ t ∈ l, (goSplit t 'T').length = 1) :
    (normalizeLoop l acc).2 = none ∧
    (normalizeLoop l acc).1 ≠ [] ∧
    (∀ w ∈ (normalizeLoop l acc).1, ∃ msg, w = Write.werror 500 msg) := by
  induction l generalizing acc with
  | nil => simp at h
  | cons t rest ih =>
    cases hsp : (goSplit t 'T')[1]? with
    | none =>
      have hlen : (goSplit t 'T').length ≤ 1 := List.getElem?_eq_none_iff.mp hsp
      have hne2 : ((goSplit t 'T').length != 2) = true := by
        simp only [bne_iff_ne, ne_eq]
        omega
      simp only [normalizeLoop, hsp, hne2, if_true]
      refine ⟨by simp, by simp, ?_⟩
      intro w hw
      simp only [List.mem_append] at hw
      rcases hw with hw | hw
      · refine ⟨"Time of booked appointment was empty", ?_⟩
        cases hb : t == "" <;> rw [hb] at hw <;> simp_all
      · refine ⟨"Time string was not in correct format with a T as a separator. Please clean the data!", ?_⟩
        simp_all
    | some s =>
      have hlen : 1 < (goSplit t 'T').length :=
        (List.getElem?_eq_some.mp hsp).1
      have hrest : ∃ u ∈ rest, (goSplit u 'T').length = 1 := by
        rcases h with ⟨u, hu, hlu⟩
        rcases List.mem_cons.mp hu with rfl | hu2
        · omega
        · exact ⟨u, hu2, hlu⟩
      have hrec := ih (acc ++ [if s.length > 5 then String.mk (s.data.take 5) else s]) hrest
      simp only [normalizeLoop, hsp]
      refine ⟨by simp [hrec.1], by simp [hrec.2.1], ?_⟩
      intro w hw
      simp only [List.mem_append] at hw
      rcases hw with (hw | hw) | hw
      · refine ⟨"Time of booked appointment was empty", ?_⟩
        cases hb : t == "" <;> rw [hb] at hw <;> simp_all
      · refine ⟨"Time string was not in correct format with a T as a separator. Please clean the data!", ?_⟩
        cases hb : (goSplit t 'T').length != 2 <;> rw [hb] at hw <;> simp_all
      · exact hrec.2.2 w hw

/-- C1: on a valid bookable-weekday date whose stored times all carry the
date/time separator, the response is exactly the generated slot list in
generation order, each slot marked booked precisely when its time-of-day
string equals some stored time normalized by `normTime`. -/
theorem getAppointments_isBooked_iff (date : String) (db : DB) (y m d : Nat)
    (hpd : parseDate date = some (y, m, d))
    (hday : contains AVAILABLE_DAYS (dayOfWeek y m d) = true)
    (hwf : ∀ t ∈ storedTimes db date, (goSplit t 'T').length = 2) :
    handleGetAppointments date db =
      [Write.wslots (generateTimeSlots.map fun slot =>
        { time := slot
          isBooked := ((storedTimes db date).map normTime).contains slot })] ∧
    (∀ slot : String,
      ((((storedTimes db date).map normTime).contains slot) = true ↔
        ∃ t ∈ storedTimes db date, normTime t = slot)) ∧
    ((generateTimeSlots.map fun slot =>
        ({ time := slot
           isBooked := ((storedTimes db date).map normTime).contains slot : TimeSlot })).map
      TimeSlot.time = generateTimeSlots) := by
  have hne : date ≠ "" := by
    intro h
    rw [h, show parseDate "" = none by decide] at hpd
    exact Option.noConfusion hpd
  refine ⟨?_, ?_, ?_⟩
  · unfold handleGetAppointments
    rw [if_neg (by simp [hne]), hpd]
    simp only [hday, Bool.not_true, Bool.false_eq_true, if_false,
      normalizeLoop_wellFormed (storedTimes db date) [] hwf]
    simp
  · intro slot
    simp [List.mem_map, eq_comm]
  · rw [List.map_map]
    exact List.map_id' generateTimeSlots

/-- Witness for C1 on Tuesday 2026-10-13 with one stored appointment whose
time normalizes to "09:30": that slot is marked booked, all others free,
in generation order. -/
theorem getAppointments_isBooked_iff_witness :
    (handleGetAppointments "2026-10-13"
        ⟨[⟨1, "n", "e@f.gh", "2026-10-13", "2026-10-13T09:30:00", none⟩], [], 2⟩ =
      [Write.wslots (generateTimeSlots.map fun slot =>
        { time := slot
          isBooked := ((storedTimes
              ⟨[⟨1, "n", "e@f.gh", "2026-10-13", "2026-10-13T09:30:00", none⟩], [], 2⟩
              "2026-10-13").map normTime).contains slot })]) ∧
    (∀ slot : String,
      ((((storedTimes
            ⟨[⟨1, "n", "e@f.gh", "2026-10-13", "2026-10-13T09:30:00", none⟩], [], 2⟩
            "2026-10-13").map normTime).contains slot) = true ↔
        ∃ t ∈ storedTimes
            ⟨[⟨1, "n", "e@f.gh", "2026-10-13", "2026-10-13T09:30:00", none⟩], [], 2⟩
            "2026-10-13", normTime t = slot)) ∧
    ((generateTimeSlots.map fun slot =>
        ({ time := slot
           isBooked := ((storedTimes
               ⟨[⟨1, "n", "e@f.gh", "2026-10-13", "2026-10-13T09:30:00", none⟩], [], 2⟩
               "2026-10-13").map normTime).contains slot : TimeSlot })).map
      TimeSlot.time = generateTimeSlots) :=
  getAppointments_isBooked_iff "2026-10-13"
    ⟨[⟨1, "n", "e@f.gh", "2026-10-13", "2026-10-13T09:30:00", none⟩], [], 2⟩
    2026 10 13 (by decide) (by decide) (by decide)

/-- C3: when some stored time value for a bookable date is malformed —
empty, or without the `"T"` date/time separator, i.e. splitting on `"T"`
yields a single fragment — the request is answered only with 500-status
internal error writes (at least one, never a slot list, never silently
skipped); and a well-formed stored value is normalized by taking the
fragment after the separator truncated to its first five characters. -/
theorem getAppointments_malformed_time_500 (date : String) (db : DB)
    (y m d : Nat)
    (hpd : parseDate date = some (y, m, d))
    (hday : contains AVAILABLE_DAYS (dayOfWeek y m d) = true)
    (hbad : ∃ t ∈ storedTimes db date, (goSplit t 'T').length = 1) :
    handleGetAppointments date db ≠ [] ∧
    (∀ w ∈ handleGetAppointments date db, ∃ msg, w = Write.werror 500 msg) ∧
    (∀ t : String, (goSplit t 'T').length = 2 →
      (normTime t).data = ((goSplit t 'T').getD 1 "").data.take 5) := by
  have hne : date ≠ "" := by
    intro h
    rw [h, show parseDate "" = none by decide] at hpd
    exact Option.noConfusion hpd
  obtain ⟨h1, h2, h3⟩ := normalizeLoop_malformed (storedTimes db date) [] hbad
  have heq : handleGetAppointments date db = (normalizeLoop (storedTimes db date) []).1 := by
    unfold handleGetAppointments
    rw [if_neg (by simp [hne]), hpd]
    simp only [hday, Bool.not_true, Bool.false_eq_true, if_false]
    cases hres : normalizeLoop (storedTimes db date) [] with
    | mk ws res =>
      rw [hres] at h1
      simp only at h1
      rw [h1]
  refine ⟨by rw [heq]; exact h2, by rw [heq]; exact h3, ?_⟩
  intro t ht
  unfold normTime
  simp only []
  by_cases hlong : 5 < ((goSplit t 'T').getD 1 "").length
  · rw [if_pos hlong]
  · rw [if_neg hlong]
    exact (List.take_of_length_le (Nat.le_of_not_lt hlong)).symm

/-- Helper: the compiled regex matcher accepts exactly the strings of the
regex's language `[^\s@]+ @ [^\s@]+ \. [^\s@]+`: a nonempty `emailOkChar`
run, the `@`, a nonempty run, a `.`, and a final nonempty run. -/
theorem emailRegexMatch_iff (s : String) :
    emailRegexMatch s = true ↔
      ∃ a b c : List Char,
        s.data = a ++ '@' :: (b ++ '.' :: c) ∧
        a ≠ [] ∧ b ≠ [] ∧ c ≠ [] ∧
        a.all emailOkChar = true ∧ b.all emailOkChar = true ∧
        c.all emailOkChar = true := by
  constructor
  · intro h
    simp only [emailRegexMatch, List.any_eq_true, List.mem_range, Bool.and_eq_true,
      decide_eq_true_eq, beq_iff_eq] at h
    obtain ⟨i, hi, j, hj, ⟨⟨⟨⟨⟨⟨h0, h1⟩, h2⟩, hat⟩, hdot⟩, hta⟩, htb⟩, htc⟩ := h
    have hat' : s.data[i] = '@' := by
      rw [← List.getD_eq_getElem s.data ' ' hi]
      exact hat
    have hdot' : s.data[j] = '.' := by
      rw [← List.getD_eq_getElem s.data ' ' hj]
      exact hdot
    have e1 : s.data = s.data.take i ++ '@' :: s.data.drop (i + 1) := by
      conv_lhs => rw [← List.take_append_drop i s.data]
      rw [List.drop_eq_getElem_cons hi, hat']
    have e3 : s.data.drop (i + 1) =
        (s.data.drop (i + 1)).take (j - (i + 1)) ++ '.' :: s.data.drop (j + 1) := by
      conv_lhs => rw [← List.take_append_drop (j - (i + 1)) (s.data.drop (i + 1))]
      rw [List.drop_drop, Nat.add_sub_cancel' (by omega : i + 1 ≤ j),
        List.drop_eq_getElem_cons hj, hdot']
    refine ⟨s.data.take i, (s.data.drop (i + 1)).take (j - (i + 1)),
      s.data.drop (j + 1), ?_, ?_, ?_, ?_, hta, htb, htc⟩
    · conv_lhs => rw [e1, e3]
    · apply List.length_pos.mp
      rw [List.length_take]
      omega
    · apply List.length_pos.mp
      rw [List.length_take, List.length_drop]
      omega
    · apply List.length_pos.mp
      rw [List.length_drop]
      omega
  · rintro ⟨a, b, c, hs, hane, hbne, hcne, haall, hball, hcall⟩
    have ha0 : 0 < a.length := List.length_pos.mpr hane
    have hb0 : 0 < b.length := List.length_pos.mpr hbne
    have hc0 : 0 < c.length := List.length_pos.mpr hcne
    have hlen : s.data.length = a.length + 1 + b.length + 1 + c.length := by
      rw [hs]
      simp [List.length_append]
      omega
    simp only [emailRegexMatch, List.any_eq_true, List.mem_range, Bool.and_eq_true,
      decide_eq_true_eq, beq_iff_eq]
    have hdropA : s.data.drop (a.length + 1) = b ++ '.' :: c := by
      rw [hs, show a ++ '@' :: (b ++ '.' :: c) = (a ++ ['@']) ++ (b ++ '.' :: c) by simp,
        List.drop_left' (by simp)]
    have hdropB : s.data.drop (a.length + 1 + b.length + 1) = c := by
      rw [hs, show a ++ '@' :: (b ++ '.' :: c) = (a ++ '@' :: b ++ ['.']) ++ c by simp,
        List.drop_left' (by simp [List.length_append]; omega)]
    refine ⟨a.length, by omega, a.length + 1 + b.length, by omega,
      ⟨⟨⟨⟨⟨⟨⟨by omega, by omega⟩, by omega⟩, ?_⟩, ?_⟩, ?_⟩, ?_⟩, ?_⟩⟩
    · rw [hs, List.getD_append_right _ _ _ _ (le_refl a.length)]
      simp
    · rw [hs, List.getD_append_right _ _ _ _ (by omega : a.length ≤ a.length + 1 + b.length),
        show a.length + 1 + b.length - a.length = b.length + 1 by omega,
        List.getD_cons_succ, List.getD_append_right _ _ _ _ (le_refl b.length)]
      simp
    · rw [hs, List.take_left' rfl]
      exact haall
    · rw [hdropA, show a.length + 1 + b.length - (a.length + 1) = b.length by omega,
        List.take_left' rfl]
      exact hball
    · rw [hdropB]
      exact hcall

/-- C7: the email-shape check shared by booking and contact validation
rejects "foo@bar" (no dot after the `@`), rejects "a b@c.com" (embedded
whitespace), accepts "a.b@c.co", and in general accepts exactly the
strings of the form local `@` domain `.` tld where the three parts are
nonempty and contain no whitespace and no `@` (so the domain part after
the `@` holds at least one interior dot). -/
theorem emailRegexMatch_spec :
    emailRegexMatch "foo@bar" = false ∧
    emailRegexMatch "a b@c.com" = false ∧
    emailRegexMatch "a.b@c.co" = true ∧
    (∀ s : String, emailRegexMatch s = true ↔
      ∃ a b c : List Char,
        s.data = a ++ '@' :: (b ++ '.' :: c) ∧
        a ≠ [] ∧ b ≠ [] ∧ c ≠ [] ∧
        a.all emailOkChar = true ∧ b.all emailOkChar = true ∧
        c.all emailOkChar = true) :=
  ⟨by decide, by decide, by decide, emailRegexMatch_iff⟩

/-- Witness for C3: a stored time "09:30" for Tuesday 2026-10-13 lacks the
separator, so the whole response is 500-status error writes, and the
well-formed "2026-10-13T09:30:00" normalizes to "09:30". -/
theorem getAppointments_malformed_time_500_witness :
    (handleGetAppointments "2026-10-13"
        ⟨[⟨1, "n", "e@f.gh", "2026-10-13", "09:30", none⟩], [], 2⟩ ≠ []) ∧
    (∀ w ∈ handleGetAppointments "2026-10-13"
        ⟨[⟨1, "n", "e@f.gh", "2026-10-13", "09:30", none⟩], [], 2⟩,
      ∃ msg, w = Write.werror 500 msg) ∧
    (∀ t : String, (goSplit t 'T').length = 2 →
      (normTime t).data = ((goSplit t 'T').getD 1 "").data.take 5) :=
  getAppointments_malformed_time_500 "2026-10-13"
    ⟨[⟨1, "n", "e@f.gh", "2026-10-13", "09:30", none⟩], [], 2⟩
    2026 10 13 (by decide) (by decide)
    ⟨"09:30", by decide, by decide⟩

end AfBackend
